import Mathlib

/-!
Verification of the leaderboard ranking and caching engine of `pick5_v6`
(`src/pages/Leaderboard.tsx`), as a shallow embedding.

The Firestore collections (`matches`, `players`, `predictions`,
`leaderboards`) are modelled as association lists inside a `Store`;
the wall clock (`new Date()`) is an explicit `now : Nat` parameter;
JavaScript `undefined` fields are `Option`; the thrown-and-caught errors
of `calculateLeaderboard` are an `Except` layer (`calcInner`) whose
catch-all handler (`calculateLeaderboard`) returns `[]`, exactly as the
`try ... catch` in the source does.
-/

namespace Pick5

/-- Match status, per `Match['status']` usage in the source
(values `upcoming`, `live`, `completed`). -/
inductive MatchStatus where
  | upcoming
  | live
  | completed
deriving DecidableEq

/-- A row of the `matches` collection. `timestamp` is the scheduled
instant in epoch milliseconds (`Date.getTime()`). -/
structure Match where
  id : String
  team1 : String
  team2 : String
  venue : String
  timestamp : Int
  description : Option String
  status : MatchStatus
deriving DecidableEq

/-- `player.matchTargets[matchId]`: a numeric target and the actual
points, which are `undefined` until scored. -/
structure PlayerMatchTarget where
  target : Int
  actualPoints : Option Int
deriving DecidableEq

/-- A row of the `players` collection, keeping only the fields the
leaderboard reads. -/
structure Player where
  id : String
  matchTargets : List (String × PlayerMatchTarget)
deriving DecidableEq

/-- A row of the `predictions` collection, keeping only the fields the
leaderboard reads. -/
structure Prediction where
  userId : String
  userEmail : String
  matchId : String
  selectedPlayers : List String
deriving DecidableEq

/-- The `LeaderboardEntry` record type of `Leaderboard.tsx`.
`matchDetails` is the full match record embedded in each entry;
`timestamp` is optional, as in the source type. -/
structure LeaderboardEntry where
  userId : String
  userEmail : String
  displayName : String
  correctPredictions : Nat
  totalPredictions : Nat
  matchId : String
  matchDetails : Match
  timestamp : Option Nat
deriving DecidableEq

/-- A document of the `leaderboards` collection:
`{ entries, lastUpdated }` as written by `fetchLeaderboard`. -/
structure StoredSnapshot where
  entries : List LeaderboardEntry
  lastUpdated : Nat
deriving DecidableEq

/-- The external document store: the four collections the page touches.
The `matches` collection is named `matchesColl` because `matches` is a
reserved word in Lean. -/
structure Store where
  matchesColl : List Match
  players : List Player
  predictions : List Prediction
  leaderboards : List (String × StoredSnapshot)
deriving DecidableEq

/-- `getDoc(doc(db, 'matches', matchId))`. -/
def findMatch (db : Store) (matchId : String) : Option Match :=
  db.matchesColl.find? (fun m => m.id == matchId)

/-- Lookup in the `playersData` map built from the `players` collection. -/
def lookupPlayer (db : Store) (playerId : String) : Option Player :=
  db.players.find? (fun p => p.id == playerId)

/-- `player.matchTargets?.[matchId]`. -/
def lookupTarget (p : Player) (matchId : String) : Option PlayerMatchTarget :=
  (p.matchTargets.find? (fun kv => kv.fst == matchId)).map Prod.snd

/-- The body of the `reduce` at lines 83-91 of `Leaderboard.tsx`, for one
selected player: the pick counts iff the player exists, has a target
record for this match, its `actualPoints` is defined, and
`actualPoints >= target`. -/
def pickCorrect (db : Store) (matchId playerId : String) : Bool :=
  match lookupPlayer db playerId with
  | none => false
  | some p =>
    match lookupTarget p matchId with
    | none => false
    | some t =>
      match t.actualPoints with
      | none => false
      | some a => t.target ≤ a

/-- `prediction.selectedPlayers.reduce(..., 0)`: the number of correct
picks, starting from accumulator `0`. -/
def correctCount (db : Store) (matchId : String) (selected : List String) : Nat :=
  selected.foldl (fun acc playerId => if pickCorrect db matchId playerId then acc + 1 else acc) 0

/-- `userEmail.split(AT)[0]` of JavaScript: the longest prefix of the
string before the first occurrence of the separator character, and the
whole string when the separator does not occur. -/
def splitAtSignHead (s : String) : String :=
  (s.toList.takeWhile (fun c => c != '@')).asString

/-- One `LeaderboardEntry` pushed for one prediction (lines 93-102).
The target lookups use the requested `matchId`; the entry's own
`matchId` field copies `prediction.matchId`. -/
def mkEntry (db : Store) (now : Nat) (matchDetails : Match) (matchId : String)
    (pr : Prediction) : LeaderboardEntry :=
  { userId := pr.userId
    userEmail := pr.userEmail
    displayName := splitAtSignHead pr.userEmail
    correctPredictions := correctCount db matchId pr.selectedPlayers
    totalPredictions := pr.selectedPlayers.length
    matchId := pr.matchId
    matchDetails := matchDetails
    timestamp := some now }

/-- `query(predictionsRef, where('matchId', '==', matchId))`. -/
def predictionsFor (db : Store) (matchId : String) : List Prediction :=
  db.predictions.filter (fun p => p.matchId == matchId)

/-- The `leaderboardData` array in prediction order, one entry per
prediction. -/
def entriesFor (db : Store) (now : Nat) (matchDetails : Match) (matchId : String) :
    List LeaderboardEntry :=
  (predictionsFor db matchId).map (mkEntry db now matchDetails matchId)

/-- Stable insertion into a list kept in descending `key` order: the new
element goes before the first element whose key it meets or beats. -/
def insertDesc {α β : Type} [LinearOrder β] (key : α → β) (a : α) : List α → List α
  | [] => [a]
  | b :: l => if key b ≤ key a then a :: b :: l else b :: insertDesc key a l

/-- Stable descending sort by `key`; models `Array.prototype.sort` with a
numeric `(a, b) => key(b) - key(a)` comparator, which ECMAScript 2019
requires to be stable. -/
def sortByDesc {α β : Type} [LinearOrder β] (key : α → β) : List α → List α
  | [] => []
  | a :: l => insertDesc key a (sortByDesc key l)

/-- `leaderboardData.sort((a, b) => b.correctPredictions - a.correctPredictions)`. -/
def rankedEntries (db : Store) (now : Nat) (matchDetails : Match) (matchId : String) :
    List LeaderboardEntry :=
  sortByDesc (fun e => e.correctPredictions) (entriesFor db now matchDetails matchId)

/-- The body of `calculateLeaderboard`'s `try` block: throws
`Match not found` for an unknown match id, otherwise scores every
prediction, sorts descending by correct picks and keeps `slice(0, 10)`. -/
def calcInner (db : Store) (now : Nat) (matchId : String) :
    Except String (List LeaderboardEntry) :=
  match findMatch db matchId with
  | none => Except.error "Match not found"
  | some matchDetails =>
    Except.ok ((rankedEntries db now matchDetails matchId).take 10)

/-- `calculateLeaderboard`: the `catch` block logs and returns `[]`, so
every internal error is turned into an empty list. -/
def calculateLeaderboard (db : Store) (now : Nat) (matchId : String) :
    List LeaderboardEntry :=
  match calcInner db now matchId with
  | Except.ok v => v
  | Except.error _ => []

/-- `getDoc(doc(db, 'leaderboards', matchId))`. -/
def lookupSnapshot (db : Store) (matchId : String) : Option StoredSnapshot :=
  (db.leaderboards.find? (fun kv => kv.fst == matchId)).map Prod.snd

/-- `setDoc(leaderboardRef, ...)`: overwrite the document keyed by
`matchId`. -/
def putSnapshot (db : Store) (matchId : String) (snap : StoredSnapshot) : Store :=
  { db with leaderboards := (matchId, snap) :: db.leaderboards.filter (fun kv => kv.fst != matchId) }

/-- The cache-hit mapping (lines 127-130):
`{...entry, timestamp: entry.timestamp?.toDate() || new Date()}` — each
stored entry kept as is, a missing timestamp defaulted to the current
time. -/
def mapStored (now : Nat) (snap : StoredSnapshot) : List LeaderboardEntry :=
  snap.entries.map (fun e => { e with timestamp := some (e.timestamp.getD now) })

/-- The observable outcome of one `fetchLeaderboard` call: what
`setLeaderboard` receives, the store afterwards, whether `setDoc` ran,
and whether `calculateLeaderboard` ran. -/
structure FetchResult where
  shown : List LeaderboardEntry
  store : Store
  wrote : Bool
  computed : Bool
deriving DecidableEq

/-- `fetchLeaderboard` (lines 115-151): read-through cache over the
`leaderboards` collection. On a hit, return the stored entries; on a
miss, compute, and persist only when the result is non-empty. -/
def fetchLeaderboard (db : Store) (now : Nat) (matchId : String) : FetchResult :=
  match lookupSnapshot db matchId with
  | some snap => ⟨mapStored now snap, db, false, false⟩
  | none =>
    let d := calculateLeaderboard db now matchId
    if 0 < d.length then ⟨d, putSnapshot db matchId ⟨d, now⟩, true, true⟩
    else ⟨d, db, false, true⟩

/-- `fetchCompletedMatches` (lines 29-44): the matches with status
`completed`, sorted by scheduled timestamp descending. -/
def fetchCompletedMatches (db : Store) : List Match :=
  sortByDesc (fun m => m.timestamp)
    (db.matchesColl.filter (fun m => m.status == MatchStatus.completed))

/-- Accumulated observations of a sequence of `fetchLeaderboard` calls. -/
structure RunLog where
  outputs : List (List LeaderboardEntry)
  store : Store
  writes : Nat
  computes : Nat
deriving DecidableEq

/-- Run `fetchLeaderboard` once per element of `times` (the wall-clock
instant of each call), threading the store through. -/
def iterFetch (matchId : String) (db : Store) : List Nat → RunLog
  | [] => ⟨[], db, 0, 0⟩
  | t :: ts =>
    let r := fetchLeaderboard db t matchId
    let rest := iterFetch matchId r.store ts
    ⟨r.shown :: rest.outputs, rest.store,
      (if r.wrote then 1 else 0) + rest.writes,
      (if r.computed then 1 else 0) + rest.computes⟩

/-! Concurrency model for the cache: one `fetchLeaderboard` call is a
task with two atomic phases separated by the `await` between `getDoc`
and `setDoc` — phase 1 reads the cache and branches, phase 2 computes
and conditionally writes. Two tasks share the store; a schedule decides
which task takes the next step. -/

/-- A task's program counter: before the cache read, after a miss, or
finished. -/
inductive TaskPhase where
  | start
  | missed
  | finished
deriving DecidableEq

/-- One in-flight `fetchLeaderboard` call. -/
structure TaskState where
  phase : TaskPhase
  output : Option (List LeaderboardEntry)
deriving DecidableEq

/-- Outcome of one atomic step of a task: the store afterwards, the task
afterwards, whether this step wrote, and whether it computed. -/
structure StepResult where
  db : Store
  task : TaskState
  wrote : Bool
  computed : Bool
deriving DecidableEq

/-- One atomic step of a task. -/
def taskStep (now : Nat) (matchId : String) (db : Store) (t : TaskState) : StepResult :=
  match t.phase with
  | TaskPhase.start =>
    match lookupSnapshot db matchId with
    | some snap => ⟨db, ⟨TaskPhase.finished, some (mapStored now snap)⟩, false, false⟩
    | none => ⟨db, ⟨TaskPhase.missed, none⟩, false, false⟩
  | TaskPhase.missed =>
    let d := calculateLeaderboard db now matchId
    if 0 < d.length then
      ⟨putSnapshot db matchId ⟨d, now⟩, ⟨TaskPhase.finished, some d⟩, true, true⟩
    else ⟨db, ⟨TaskPhase.finished, some d⟩, false, true⟩
  | TaskPhase.finished => ⟨db, t, false, false⟩

/-- Two concurrent `fetchLeaderboard` calls over one shared store, with
per-task write and computation counters. -/
structure SysState where
  db : Store
  task0 : TaskState
  task1 : TaskState
  writes0 : Nat
  writes1 : Nat
  computes0 : Nat
  computes1 : Nat
deriving DecidableEq

/-- Let task 1 (when `which` is true) or task 0 take one atomic step. -/
def sysStep (now : Nat) (matchId : String) (s : SysState) (which : Bool) : SysState :=
  if which then
    let r := taskStep now matchId s.db s.task1
    { s with
      db := r.db
      task1 := r.task
      writes1 := s.writes1 + (if r.wrote then 1 else 0)
      computes1 := s.computes1 + (if r.computed then 1 else 0) }
  else
    let r := taskStep now matchId s.db s.task0
    { s with
      db := r.db
      task0 := r.task
      writes0 := s.writes0 + (if r.wrote then 1 else 0)
      computes0 := s.computes0 + (if r.computed then 1 else 0) }

/-- Run a schedule (a list of task choices) from a system state. -/
def runSchedule (now : Nat) (matchId : String) (sched : List Bool) (s : SysState) : SysState :=
  sched.foldl (sysStep now matchId) s

/-- Both tasks at their first phase, nothing written or computed yet. -/
def initSys (db : Store) : SysState :=
  ⟨db, ⟨TaskPhase.start, none⟩, ⟨TaskPhase.start, none⟩, 0, 0, 0, 0⟩

/-! Concrete data used by counterexamples and witnesses: one completed
match `m1`, three players with targets for it, and two predictions. -/

/-- A completed match. -/
def m1 : Match :=
  { id := "m1", team1 := "A", team2 := "B", venue := "V", timestamp := 100,
    description := none, status := MatchStatus.completed }

/-- Player who beat the target: 45 achieved against a target of 30. -/
def p1 : Player := { id := "p1", matchTargets := [("m1", ⟨30, some 45⟩)] }

/-- Player who missed the target: 10 achieved against a target of 20. -/
def p2 : Player := { id := "p2", matchTargets := [("m1", ⟨20, some 10⟩)] }

/-- Player whose actual value is still absent. -/
def p3 : Player := { id := "p3", matchTargets := [("m1", ⟨25, none⟩)] }

/-- First-submitted prediction: three picks, one of which is correct. -/
def predAlice : Prediction :=
  { userId := "u1", userEmail := "alice@example.com", matchId := "m1",
    selectedPlayers := ["p1", "p2", "p3"] }

/-- Second-submitted prediction: one pick, which is correct. -/
def predBob : Prediction :=
  { userId := "u2", userEmail := "bob@example.com", matchId := "m1",
    selectedPlayers := ["p1"] }

/-- A store with `m1` uncached: one completed match, three players, two
predictions, no stored leaderboard. -/
def sampleDb : Store :=
  { matchesColl := [m1], players := [p1, p2, p3],
    predictions := [predAlice, predBob], leaderboards := [] }

/-- A store with no matches at all, so any match id is unknown. -/
def noMatchDb : Store :=
  { matchesColl := [], players := [], predictions := [], leaderboards := [] }

/-- The entry the engine computes for `predBob` at time 3; used to seed a
pre-populated cache. -/
def entryBob3 : LeaderboardEntry := mkEntry sampleDb 3 m1 "m1" predBob

/-- `sampleDb` with a snapshot for `m1` already cached. -/
def cachedDb : Store :=
  { sampleDb with leaderboards := [("m1", ⟨[entryBob3], 5⟩)] }

/-! Lemmas about the stable descending sort. -/

section SortLemmas

variable {α β : Type} [LinearOrder β]

theorem insertDesc_perm (key : α → β) (a : α) (l : List α) :
    List.Perm (insertDesc key a l) (a :: l) := by
  induction l with
  | nil => simp [insertDesc]
  | cons b bs ih =>
    by_cases h : key b ≤ key a
    · simp [insertDesc, h]
    · simp only [insertDesc, if_neg h]
      exact (ih.cons b).trans (List.Perm.swap a b bs)

theorem mem_insertDesc (key : α → β) (a x : α) (l : List α) :
    x ∈ insertDesc key a l ↔ x ∈ a :: l :=
  (insertDesc_perm key a l).mem_iff

theorem sortByDesc_perm (key : α → β) (l : List α) :
    List.Perm (sortByDesc key l) l := by
  induction l with
  | nil => simp [sortByDesc]
  | cons a l ih =>
    exact (insertDesc_perm key a (sortByDesc key l)).trans (ih.cons a)

theorem pairwise_insertDesc (key : α → β) (a : α) (l : List α)
    (h : List.Pairwise (fun x y => key y ≤ key x) l) :
    List.Pairwise (fun x y => key y ≤ key x) (insertDesc key a l) := by
  induction l with
  | nil => simp [insertDesc]
  | cons b bs ih =>
    rcases List.pairwise_cons.mp h with ⟨hb, hbs⟩
    by_cases hba : key b ≤ key a
    · simp only [insertDesc, if_pos hba]
      refine List.pairwise_cons.mpr ⟨?_, h⟩
      intro y hy
      rcases List.mem_cons.mp hy with rfl | hy
      · exact hba
      · exact le_trans (hb y hy) hba
    · simp only [insertDesc, if_neg hba]
      refine List.pairwise_cons.mpr ⟨?_, ih hbs⟩
      intro y hy
      rcases List.mem_cons.mp ((mem_insertDesc key a y bs).mp hy) with rfl | hy
      · exact (lt_of_not_le hba).le
      · exact hb y hy

theorem pairwise_sortByDesc (key : α → β) (l : List α) :
    List.Pairwise (fun x y => key y ≤ key x) (sortByDesc key l) := by
  induction l with
  | nil => simp [sortByDesc]
  | cons a l ih => exact pairwise_insertDesc key a _ ih

theorem filter_insertDesc (key : α → β) (k : β) (a : α) (l : List α) :
    (insertDesc key a l).filter (fun x => decide (key x = k))
      = ((a :: l).filter (fun x => decide (key x = k))) := by
  induction l with
  | nil => rfl
  | cons b bs ih =>
    by_cases hba : key b ≤ key a
    · simp only [insertDesc, if_pos hba]
    · simp only [insertDesc, if_neg hba]
      by_cases hbk : key b = k
      · have hak : ¬ key a = k := fun hak => hba (hak ▸ hbk ▸ le_refl k)
        simp [List.filter_cons, hbk, hak, ih]
      · simp [List.filter_cons, hbk, ih]

theorem filter_sortByDesc (key : α → β) (k : β) (l : List α) :
    (sortByDesc key l).filter (fun x => decide (key x = k))
      = l.filter (fun x => decide (key x = k)) := by
  induction l with
  | nil => rfl
  | cons a l ih =>
    simp only [sortByDesc]
    rw [filter_insertDesc]
    by_cases hak : key a = k
    · simp [List.filter_cons, hak, ih]
    · simp [List.filter_cons, hak, ih]

theorem map_insertDesc (key : α → β) (f : α → α) (hf : ∀ x, key (f x) = key x)
    (a : α) (l : List α) :
    (insertDesc key a l).map f = insertDesc key (f a) (l.map f) := by
  induction l with
  | nil => rfl
  | cons b bs ih =>
    by_cases hba : key b ≤ key a
    · simp only [insertDesc, if_pos hba, List.map_cons]
      rw [if_pos (by rw [hf, hf]; exact hba)]
    · simp only [insertDesc, if_neg hba, List.map_cons]
      rw [if_neg (by rw [hf, hf]; exact hba), ih]

theorem map_sortByDesc (key : α → β) (f : α → α) (hf : ∀ x, key (f x) = key x)
    (l : List α) :
    (sortByDesc key l).map f = sortByDesc key (l.map f) := by
  induction l with
  | nil => rfl
  | cons a l ih =>
    simp only [sortByDesc, List.map_cons]
    rw [map_insertDesc key f hf, ih]

theorem length_sortByDesc (key : α → β) (l : List α) :
    (sortByDesc key l).length = l.length :=
  (sortByDesc_perm key l).length_eq

end SortLemmas

/-- In a `Pairwise R` list, every kept element relates to every dropped
element. -/
theorem pairwise_take_drop {α : Type} {R : α → α → Prop} {l : List α}
    (h : List.Pairwise R l) (n : Nat) :
    ∀ x ∈ l.take n, ∀ y ∈ l.drop n, R x y := by
  have h2 : List.Pairwise R (l.take n ++ l.drop n) := by
    rwa [List.take_append_drop]
  exact (List.pairwise_append.mp h2).right.right

/-- The counting fold of the source's `reduce` equals `countP`. -/
theorem foldl_count {α : Type} (p : α → Bool) (l : List α) (n : Nat) :
    l.foldl (fun acc x => if p x then acc + 1 else acc) n = n + l.countP p := by
  induction l generalizing n with
  | nil => simp
  | cons x xs ih =>
    simp only [List.foldl_cons, List.countP_cons]
    by_cases hx : p x = true
    · rw [if_pos hx, ih, if_pos hx]
      omega
    · rw [if_neg hx, ih, if_neg hx]
      omega

theorem correctCount_eq_countP (db : Store) (matchId : String) (selected : List String) :
    correctCount db matchId selected
      = selected.countP (fun playerId => pickCorrect db matchId playerId) := by
  unfold correctCount
  rw [foldl_count]
  simp

/-- Every entry of a computed leaderboard comes from one stored
prediction for the requested match, via `mkEntry`. -/
theorem mem_calc {db : Store} {now : Nat} {matchId : String} {e : LeaderboardEntry}
    (he : e ∈ calculateLeaderboard db now matchId) :
    ∃ matchDetails pr, findMatch db matchId = some matchDetails
      ∧ pr ∈ db.predictions ∧ pr.matchId = matchId
      ∧ e = mkEntry db now matchDetails matchId pr := by
  unfold calculateLeaderboard calcInner at he
  cases hm : findMatch db matchId with
  | none => simp [hm] at he
  | some md =>
    simp only [hm] at he
    have h1 : e ∈ rankedEntries db now md matchId := List.mem_of_mem_take he
    rw [rankedEntries] at h1
    have h2 : e ∈ entriesFor db now md matchId :=
      ((sortByDesc_perm (fun x => x.correctPredictions) _).mem_iff).mp h1
    obtain ⟨pr, hpr, he2⟩ := List.mem_map.mp h2
    have h3 := List.mem_filter.mp hpr
    exact ⟨md, pr, rfl, h3.left, eq_of_beq h3.right, he2.symm⟩

/-- The player's target record for the match: the composite lookup
player-then-target. -/
def targetFor (db : Store) (matchId playerId : String) : Option PlayerMatchTarget :=
  match lookupPlayer db playerId with
  | none => none
  | some p => lookupTarget p matchId

/-- Claim-side reading of the scoring rule: the pick's player has a
target record for this match, an actual value is present, and
actual ≥ target. -/
def pickQualifies (db : Store) (matchId playerId : String) : Prop :=
  ∃ t, targetFor db matchId playerId = some t
    ∧ ∃ a, t.actualPoints = some a ∧ t.target ≤ a

/-- C1: a pick is counted as correct iff the player's target record for
the match has a present actual value with actual ≥ target; a pick with
no target record or no actual value is counted as not correct and still
contributes to the total, so every entry's total equals the size of its
prediction's selection set and its correct count is the number of
qualifying picks. -/
theorem pick_scoring_correct (db : Store) (now : Nat) (matchId : String) :
    (∀ playerId, pickCorrect db matchId playerId = true ↔ pickQualifies db matchId playerId)
    ∧ (∀ selected : List String,
        correctCount db matchId selected
          = selected.countP (fun playerId => pickCorrect db matchId playerId))
    ∧ (∀ e ∈ calculateLeaderboard db now matchId,
        ∃ pr, pr ∈ db.predictions ∧ pr.matchId = matchId
          ∧ e.correctPredictions
              = pr.selectedPlayers.countP (fun playerId => pickCorrect db matchId playerId)
          ∧ e.totalPredictions = pr.selectedPlayers.length) := by
  refine ⟨?_, ?_, ?_⟩
  · intro playerId
    unfold pickCorrect pickQualifies targetFor
    cases hp : lookupPlayer db playerId with
    | none => simp
    | some p =>
      cases ht : lookupTarget p matchId with
      | none => simp [ht]
      | some t =>
        cases ha : t.actualPoints with
        | none => simp [ht, ha]
        | some a => simp [ht, ha]
  · intro selected
    exact correctCount_eq_countP db matchId selected
  · intro e he
    obtain ⟨md, pr, _, hpr, hmid, rfl⟩ := mem_calc he
    exact ⟨pr, hpr, hmid, correctCount_eq_countP db matchId pr.selectedPlayers, rfl⟩

/-- C1 witness: in the sample store, the theorem applied to Alice's
computed entry, whose membership in the output is discharged by
evaluation. -/
theorem pick_scoring_correct_witness :
    ∃ pr, pr ∈ sampleDb.predictions ∧ pr.matchId = "m1"
      ∧ (mkEntry sampleDb 0 m1 "m1" predAlice).correctPredictions
          = pr.selectedPlayers.countP (fun playerId => pickCorrect sampleDb "m1" playerId)
      ∧ (mkEntry sampleDb 0 m1 "m1" predAlice).totalPredictions
          = pr.selectedPlayers.length :=
  (pick_scoring_correct sampleDb 0 "m1").right.right
    (mkEntry sampleDb 0 m1 "m1" predAlice) (by decide)

/-- C9: every entry of every snapshot the engine computes satisfies
0 ≤ correctPicks ≤ totalPicks. -/
theorem entry_invariant (db : Store) (now : Nat) (matchId : String) :
    ∀ e ∈ calculateLeaderboard db now matchId,
      0 ≤ e.correctPredictions ∧ e.correctPredictions ≤ e.totalPredictions := by
  intro e he
  obtain ⟨md, pr, _, _, _, rfl⟩ := mem_calc he
  refine ⟨Nat.zero_le _, ?_⟩
  simp only [mkEntry]
  rw [correctCount_eq_countP]
  exact List.countP_le_length _

/-- C9 witness: the invariant instantiated at Bob's entry in the sample
store's computed leaderboard. -/
theorem entry_invariant_witness :
    0 ≤ (mkEntry sampleDb 0 m1 "m1" predBob).correctPredictions
      ∧ (mkEntry sampleDb 0 m1 "m1" predBob).correctPredictions
          ≤ (mkEntry sampleDb 0 m1 "m1" predBob).totalPredictions :=
  entry_invariant sampleDb 0 "m1" (mkEntry sampleDb 0 m1 "m1" predBob) (by decide)

/-- Claim-side reading of the display name: the portion of the email
before the first AT sign, or the whole email when it contains none. -/
def emailLocalPart (s : String) : String :=
  if '@' ∈ s.toList
  then (s.toList.take (s.toList.indexOf '@')).asString
  else s

/-- Taking while not-AT is the same as taking up to the index of the
first AT. -/
theorem takeWhile_ne_eq_take_indexOf (l : List Char) :
    l.takeWhile (fun c => c != '@') = l.take (l.indexOf '@') := by
  induction l with
  | nil => rfl
  | cons c cs ih =>
    by_cases hc : c = '@'
    · subst hc
      rw [List.indexOf_cons_self]
      simp [List.takeWhile_cons]
    · rw [List.indexOf_cons_ne _ hc, List.take_succ_cons, List.takeWhile_cons, if_pos (by simp [hc]), ih]

/-- The code's split-head agrees with the claim-side local part on every
string. -/
theorem splitAtSignHead_eq_emailLocalPart (s : String) :
    splitAtSignHead s = emailLocalPart s := by
  unfold splitAtSignHead emailLocalPart
  by_cases hc : '@' ∈ s.toList
  · rw [if_pos hc, takeWhile_ne_eq_take_indexOf]
  · rw [if_neg hc]
    have hall : ∀ c ∈ s.toList, (fun c => c != '@') c = true := by
      intro c hcs
      simp only [bne_iff_ne, ne_eq]
      intro h
      exact hc (h ▸ hcs)
    rw [List.takeWhile_eq_self_iff.mpr hall, String.asString_toList]

/-- C10: each computed entry's display name is the portion of its
prediction's userEmail before the first AT character, the whole email
when none occurs. -/
theorem displayName_localpart (db : Store) (now : Nat) (matchId : String) :
    ∀ e ∈ calculateLeaderboard db now matchId,
      ∃ pr, pr ∈ db.predictions ∧ e.userEmail = pr.userEmail
        ∧ e.displayName = emailLocalPart pr.userEmail := by
  intro e he
  obtain ⟨md, pr, _, hpr, _, rfl⟩ := mem_calc he
  exact ⟨pr, hpr, rfl, splitAtSignHead_eq_emailLocalPart pr.userEmail⟩

/-- C10 witness: the display-name law applied to Alice's entry in the
sample store. -/
theorem displayName_localpart_witness :
    ∃ pr, pr ∈ sampleDb.predictions
      ∧ (mkEntry sampleDb 0 m1 "m1" predAlice).userEmail = pr.userEmail
      ∧ (mkEntry sampleDb 0 m1 "m1" predAlice).displayName = emailLocalPart pr.userEmail :=
  displayName_localpart sampleDb 0 "m1" (mkEntry sampleDb 0 m1 "m1" predAlice) (by decide)

/-- C8: the completed-matches list contains exactly the matches whose
status is completed (no other status appears), ordered by scheduled
timestamp descending. -/
theorem eligible_matches (db : Store) :
    (∀ m ∈ fetchCompletedMatches db, m.status = MatchStatus.completed)
    ∧ List.Perm (fetchCompletedMatches db)
        (db.matchesColl.filter (fun m => m.status == MatchStatus.completed))
    ∧ List.Pairwise (fun a b => b.timestamp ≤ a.timestamp) (fetchCompletedMatches db) := by
  refine ⟨?_, ?_, ?_⟩
  · intro m hm
    have h1 : m ∈ db.matchesColl.filter (fun m => m.status == MatchStatus.completed) :=
      (sortByDesc_perm (fun m : Match => m.timestamp) _).mem_iff.mp hm
    exact eq_of_beq (List.mem_filter.mp h1).right
  · exact sortByDesc_perm _ _
  · exact pairwise_sortByDesc _ _

/-- C8 witness: the sample store's one completed match appears in the
list and has status completed. -/
theorem eligible_matches_witness : m1.status = MatchStatus.completed :=
  (eligible_matches sampleDb).left m1 (by decide)

/-- C2: the computed snapshot is the stable descending sort of the
entries (taken in prediction submission order) truncated to at most 10
entries: it is sorted by correct picks descending, the sorted list is a
permutation of the submission-order entries whose ties keep submission
order (each equal-score class is unchanged), and every dropped entry
scores no more than every kept one. -/
theorem ranking_sorted_stable_topN (db : Store) (now : Nat) (matchId : String)
    (matchDetails : Match) (h : findMatch db matchId = some matchDetails) :
    calculateLeaderboard db now matchId = (rankedEntries db now matchDetails matchId).take 10
    ∧ List.Pairwise (fun a b => b.correctPredictions ≤ a.correctPredictions)
        (calculateLeaderboard db now matchId)
    ∧ List.Perm (rankedEntries db now matchDetails matchId)
        (entriesFor db now matchDetails matchId)
    ∧ (∀ k : Nat,
        (rankedEntries db now matchDetails matchId).filter
            (fun e => decide (e.correctPredictions = k))
          = (entriesFor db now matchDetails matchId).filter
            (fun e => decide (e.correctPredictions = k)))
    ∧ (calculateLeaderboard db now matchId).length ≤ 10
    ∧ (∀ x ∈ calculateLeaderboard db now matchId,
        ∀ y ∈ (rankedEntries db now matchDetails matchId).drop 10,
          y.correctPredictions ≤ x.correctPredictions) := by
  have hcalc : calculateLeaderboard db now matchId
      = (rankedEntries db now matchDetails matchId).take 10 := by
    unfold calculateLeaderboard calcInner
    rw [h]
  have hpw : List.Pairwise (fun a b => b.correctPredictions ≤ a.correctPredictions)
      (rankedEntries db now matchDetails matchId) :=
    pairwise_sortByDesc (fun e : LeaderboardEntry => e.correctPredictions)
      (entriesFor db now matchDetails matchId)
  refine ⟨hcalc, ?_, sortByDesc_perm _ _, fun k => filter_sortByDesc _ _ _, ?_, ?_⟩
  · rw [hcalc]
    exact List.Pairwise.sublist (List.take_sublist 10 _) hpw
  · rw [hcalc, List.length_take]
    exact min_le_left 10 _
  · rw [hcalc]
    intro x hx y hy
    exact pairwise_take_drop hpw 10 x hx y hy

/-- C2 witness: the sorted/truncated properties instantiated in the
sample store; the output keeps Alice (submitted first) ahead of Bob on
their 1-1 tie and has at most 10 entries. -/
theorem ranking_sorted_stable_topN_witness :
    (calculateLeaderboard sampleDb 0 "m1").length ≤ 10 :=
  (ranking_sorted_stable_topN sampleDb 0 "m1" m1
    (by decide)).right.right.right.right.left

/-- Reading back the key just written returns the written snapshot. -/
theorem lookupSnapshot_putSnapshot (db : Store) (matchId : String) (snap : StoredSnapshot) :
    lookupSnapshot (putSnapshot db matchId snap) matchId = some snap := by
  simp [lookupSnapshot, putSnapshot]

/-- The computed leaderboard's length is the number of predictions for
the match, capped at 10. -/
theorem length_calculateLeaderboard (db : Store) (now : Nat) (matchId : String)
    (matchDetails : Match) (h : findMatch db matchId = some matchDetails) :
    (calculateLeaderboard db now matchId).length
      = min 10 (predictionsFor db matchId).length := by
  unfold calculateLeaderboard calcInner
  rw [h]
  simp only [List.length_take, rankedEntries, length_sortByDesc, entriesFor, List.length_map]

/-- A cache miss always runs the computation, whatever its outcome. -/
theorem fetch_miss_computes (db : Store) (now : Nat) (matchId : String)
    (hmiss : lookupSnapshot db matchId = none) :
    (fetchLeaderboard db now matchId).computed = true := by
  unfold fetchLeaderboard
  rw [hmiss]
  by_cases hd : 0 < (calculateLeaderboard db now matchId).length
  · simp [hd]
  · simp [hd]

/-- C3: on a cache miss for an existing match, a non-empty prediction
set makes the computed snapshot be persisted under the match id before
it is returned, while zero predictions yield an empty non-error result
that is returned but never persisted, so a later call for the same
match computes again. -/
theorem cache_miss_behaviour (db : Store) (now later : Nat) (matchId : String)
    (matchDetails : Match)
    (hmiss : lookupSnapshot db matchId = none)
    (hmatch : findMatch db matchId = some matchDetails) :
    (predictionsFor db matchId ≠ [] →
      (fetchLeaderboard db now matchId).wrote = true
      ∧ lookupSnapshot (fetchLeaderboard db now matchId).store matchId
          = some ⟨calculateLeaderboard db now matchId, now⟩
      ∧ (fetchLeaderboard db now matchId).shown = calculateLeaderboard db now matchId)
    ∧ (predictionsFor db matchId = [] →
      calcInner db now matchId = Except.ok []
      ∧ (fetchLeaderboard db now matchId).shown = []
      ∧ (fetchLeaderboard db now matchId).wrote = false
      ∧ (fetchLeaderboard db now matchId).store = db
      ∧ (fetchLeaderboard (fetchLeaderboard db now matchId).store later matchId).computed
          = true) := by
  constructor
  · intro hne
    have hd : 0 < (calculateLeaderboard db now matchId).length := by
      rw [length_calculateLeaderboard db now matchId matchDetails hmatch]
      have : 0 < (predictionsFor db matchId).length := List.length_pos.mpr hne
      omega
    have hfetch : fetchLeaderboard db now matchId
        = ⟨calculateLeaderboard db now matchId,
           putSnapshot db matchId ⟨calculateLeaderboard db now matchId, now⟩, true, true⟩ := by
      simp [fetchLeaderboard, hmiss, hd]
    rw [hfetch]
    exact ⟨rfl, lookupSnapshot_putSnapshot db matchId _, rfl⟩
  · intro hempty
    have hok : calcInner db now matchId = Except.ok [] := by
      unfold calcInner
      rw [hmatch]
      simp [rankedEntries, entriesFor, hempty, sortByDesc]
    have hcalcnil : calculateLeaderboard db now matchId = [] := by
      unfold calculateLeaderboard
      rw [hok]
    have hd : ¬ 0 < (calculateLeaderboard db now matchId).length := by
      rw [hcalcnil]
      simp
    have hfetch : fetchLeaderboard db now matchId
        = ⟨calculateLeaderboard db now matchId, db, false, true⟩ := by
      simp [fetchLeaderboard, hmiss, hd]
    rw [hfetch]
    exact ⟨hok, hcalcnil, rfl, rfl, fetch_miss_computes db later matchId hmiss⟩

/-- C3 witness: in the sample store (uncached, two predictions) the
first fetch writes the computed snapshot under the match id and shows
it. -/
theorem cache_miss_behaviour_witness :
    (fetchLeaderboard sampleDb 0 "m1").wrote = true
    ∧ lookupSnapshot (fetchLeaderboard sampleDb 0 "m1").store "m1"
        = some ⟨calculateLeaderboard sampleDb 0 "m1", 0⟩
    ∧ (fetchLeaderboard sampleDb 0 "m1").shown = calculateLeaderboard sampleDb 0 "m1" :=
  (cache_miss_behaviour sampleDb 0 1 "m1" m1 (by decide) (by decide)).left (by decide)

/-- Keeping each entry's present timestamp is the identity. -/
theorem map_timestamp_id (now : Nat) (l : List LeaderboardEntry)
    (hts : ∀ e ∈ l, e.timestamp ≠ none) :
    l.map (fun e => { e with timestamp := some (e.timestamp.getD now) }) = l := by
  induction l with
  | nil => rfl
  | cons e es ih =>
    simp only [List.map_cons]
    rw [ih (fun x hx => hts x (List.mem_cons_of_mem e hx))]
    have h1 : some (e.timestamp.getD now) = e.timestamp := by
      cases h : e.timestamp with
      | none => exact absurd h (hts e (List.mem_cons_self e es))
      | some t => rfl
    rw [h1]

/-- When every stored entry carries a timestamp (as every snapshot the
code writes does), the cache-hit mapping returns the stored entries
unchanged. -/
theorem mapStored_eq_entries (now : Nat) (snap : StoredSnapshot)
    (hts : ∀ e ∈ snap.entries, e.timestamp ≠ none) :
    mapStored now snap = snap.entries :=
  map_timestamp_id now snap.entries hts

/-- C5: while a snapshot is stored for the match (its entries carrying
timestamps, as all snapshots written by the code do), every call
returns the stored entries unmodified, never invokes the ranking
computation, never writes, and leaves the store untouched — so any
number of calls triggers no further persisted write and all outputs are
equal. -/
theorem cache_hit_no_write (db : Store) (matchId : String) (snap : StoredSnapshot)
    (hhit : lookupSnapshot db matchId = some snap)
    (hts : ∀ e ∈ snap.entries, e.timestamp ≠ none) :
    ∀ times : List Nat,
      (iterFetch matchId db times).writes = 0
      ∧ (iterFetch matchId db times).computes = 0
      ∧ (iterFetch matchId db times).store = db
      ∧ (iterFetch matchId db times).outputs = times.map (fun _ => snap.entries) := by
  intro times
  induction times with
  | nil => exact ⟨rfl, rfl, rfl, rfl⟩
  | cons t ts ih =>
    have hfetch : fetchLeaderboard db t matchId = ⟨snap.entries, db, false, false⟩ := by
      simp [fetchLeaderboard, hhit, mapStored_eq_entries t snap hts]
    simp only [iterFetch, hfetch, List.map_cons]
    exact ⟨by simp [ih.left], by simp [ih.right.left], ih.right.right.left,
      by simp [ih.right.right.right]⟩

/-- C5 witness: three calls against a pre-populated cache perform no
write and no computation and all show the stored entries. -/
theorem cache_hit_no_write_witness :
    (iterFetch "m1" cachedDb [0, 1, 2]).writes = 0
    ∧ (iterFetch "m1" cachedDb [0, 1, 2]).computes = 0
    ∧ (iterFetch "m1" cachedDb [0, 1, 2]).store = cachedDb
    ∧ (iterFetch "m1" cachedDb [0, 1, 2]).outputs
        = [0, 1, 2].map (fun _ => (⟨[entryBob3], 5⟩ : StoredSnapshot).entries) :=
  cache_hit_no_write cachedDb "m1" ⟨[entryBob3], 5⟩ (by decide) (by decide) [0, 1, 2]

/-- C4 counterexample: for an unknown match id the engine raises
`Match not found` internally, but `calculateLeaderboard` returns the
empty list to its caller — the error is surfaced silently as an empty
result, not propagated. -/
theorem unknown_match_silently_empty :
    findMatch noMatchDb "m1" = none
    ∧ calcInner noMatchDb 0 "m1" = Except.error "Match not found"
    ∧ calculateLeaderboard noMatchDb 0 "m1" = [] :=
  ⟨rfl, rfl, rfl⟩

/-- C4 (amended): for every unknown match id the inner computation
fails with `Match not found`, and the catch-all handler of
`calculateLeaderboard` suppresses the error, returning an empty list. -/
theorem unknown_match_suppressed (db : Store) (now : Nat) (matchId : String)
    (h : findMatch db matchId = none) :
    calcInner db now matchId = Except.error "Match not found"
    ∧ calculateLeaderboard db now matchId = [] := by
  constructor
  · unfold calcInner
    rw [h]
  · unfold calculateLeaderboard calcInner
    rw [h]

/-- C4 witness: the amended claim at the empty store. -/
theorem unknown_match_suppressed_witness :
    calcInner noMatchDb 1 "m1" = Except.error "Match not found"
    ∧ calculateLeaderboard noMatchDb 1 "m1" = [] :=
  unknown_match_suppressed noMatchDb 1 "m1" rfl

/-- C6 counterexample: two compute calls at different wall-clock
instants over identical underlying data give snapshots that are not
identical — the per-entry timestamp field records each call's time. -/
theorem compute_not_byte_identical :
    calculateLeaderboard sampleDb 0 "m1" ≠ calculateLeaderboard sampleDb 1 "m1" := by
  decide

/-- Drop the one wall-clock-dependent field of an entry. -/
def eraseTimestamp (e : LeaderboardEntry) : LeaderboardEntry :=
  { e with timestamp := none }

/-- C6 (amended): with unchanged underlying data, two compute calls
agree on every field of every entry and on the order, except each
entry's timestamp, which records the call's own wall-clock time. -/
theorem compute_deterministic_up_to_timestamp (db : Store) (t1 t2 : Nat) (matchId : String) :
    (calculateLeaderboard db t1 matchId).map eraseTimestamp
      = (calculateLeaderboard db t2 matchId).map eraseTimestamp := by
  unfold calculateLeaderboard calcInner
  cases h : findMatch db matchId with
  | none => rfl
  | some md =>
    simp only [List.map_take]
    congr 1
    unfold rankedEntries
    rw [map_sortByDesc (fun e : LeaderboardEntry => e.correctPredictions) eraseTimestamp
        (fun x => rfl),
      map_sortByDesc (fun e : LeaderboardEntry => e.correctPredictions) eraseTimestamp
        (fun x => rfl)]
    congr 1
    unfold entriesFor
    rw [List.map_map, List.map_map]
    have hfun : (eraseTimestamp ∘ mkEntry db t1 md matchId)
        = (eraseTimestamp ∘ mkEntry db t2 md matchId) := funext (fun pr => rfl)
    rw [hfun]

/-- C7: the cache performs an unguarded read-then-compute-then-write,
so under the interleaving in which both of two simultaneous calls for
the uncached match read the cache before either writes, each task runs
its own computation and performs its own write: two computations and
two writes instead of exactly one. -/
theorem concurrent_duplicate_write :
    lookupSnapshot sampleDb "m1" = none
    ∧ (runSchedule 0 "m1" [false, true, false, true] (initSys sampleDb)).writes0 = 1
    ∧ (runSchedule 0 "m1" [false, true, false, true] (initSys sampleDb)).writes1 = 1
    ∧ (runSchedule 0 "m1" [false, true, false, true] (initSys sampleDb)).computes0 = 1
    ∧ (runSchedule 0 "m1" [false, true, false, true] (initSys sampleDb)).computes1 = 1 := by
  decide

end Pick5
